import Mathlib

/-!
# ambnb: Apple MacBookPro backlight driver (`ambnb.c`)

A shallow embedding of the driver's port protocol, its sysctl handler and its
probe routine, followed by the properties of the driver's specification.

Port I/O is modelled over an arbitrary hardware model (`Machine`); every port
operation issued by the driver is appended to a trace, and every call of the
two backlight routines is appended to a call log.
-/

namespace Ambnb

/-! ## Constants -/

/-- Control port of the SMI pair: `#define AMBNB_SMI_CTRL 0xb2`. -/
def AMBNB_SMI_CTRL : Nat := 0xb2

/-- Data port of the SMI pair: `#define AMBNB_SMI_DATA 0xb3`. -/
def AMBNB_SMI_DATA : Nat := 0xb3

/-- Value of `EINVAL` in `sys/errno.h`. -/
def EINVAL : Int := 22

/-- Value of `ENXIO` in `sys/errno.h`. -/
def ENXIO : Int := 6

/-- Value of `BUS_PROBE_DEFAULT` in `sys/bus.h`. -/
def BUS_PROBE_DEFAULT : Int := -20

/-! ## Port I/O -/

/-- One port operation, as seen on the bus. -/
inductive PortOp where
  | outb (port : Nat) (data : Nat)
  | inb (port : Nat)
  deriving DecidableEq, Repr

/-- A call of one of the two backlight routines. -/
inductive Call where
  | get
  | set (level : Int)
  deriving DecidableEq, Repr

/-- A hardware model: how a state reacts to a byte written to a port, and which
byte a port read yields. -/
structure Machine (σ : Type) where
  outb : σ → Nat → Nat → σ
  inb : σ → Nat → Nat × σ

/-- The hardware state together with the port operations and backlight calls
made so far. -/
structure World (σ : Type) where
  hw : σ
  trace : List PortOp
  calls : List Call

/-- Conversion of a C `int` to `u_char`, the type of the data argument of
`outb` and of the result of `inb`. -/
def u_char (x : Int) : Nat := (x % 256).toNat

/-- The instruction `outb(port, data)`: `data` is converted to `u_char`. -/
def outb {σ : Type} (m : Machine σ) (port : Nat) (data : Int) (w : World σ) : World σ :=
  { w with hw := m.outb w.hw port (u_char data),
           trace := w.trace ++ [PortOp.outb port (u_char data)] }

/-- The instruction `inb(port)`: the result is a `u_char`. -/
def inb {σ : Type} (m : Machine σ) (port : Nat) (w : World σ) : Nat × World σ :=
  ((m.inb w.hw port).1 % 256,
   { w with hw := (m.inb w.hw port).2, trace := w.trace ++ [PortOp.inb port] })

/-! ## Backlight routines -/

/-- The routine `ambnb_set_backlight(level)`. The only call site passes
`0 ≤ level ≤ 15`, where `0x04 | (level << 4)` does not leave the range of `int`. -/
def ambnb_set_backlight {σ : Type} (m : Machine σ) (level : Int) (w : World σ) : World σ :=
  let w := { w with calls := w.calls ++ [Call.set level] }
  let w := outb m AMBNB_SMI_DATA (Int.lor 0x04 (level <<< (4 : Int))) w
  outb m AMBNB_SMI_CTRL 0xbf w

/-- The routine `ambnb_get_backlight()`. -/
def ambnb_get_backlight {σ : Type} (m : Machine σ) (w : World σ) : Int × World σ :=
  let w := { w with calls := w.calls ++ [Call.get] }
  let w := outb m AMBNB_SMI_DATA 0x03 w
  let w := outb m AMBNB_SMI_CTRL 0xbf w
  let r := inb m AMBNB_SMI_DATA w
  (((r.1 : Int) >>> (4 : Nat)), r.2)

/-! ## The sysctl handler -/

/-- The part of `struct sysctl_req` the handler looks at: `newptr` is `none`
for `NULL` and holds the integer the caller supplies otherwise. -/
structure sysctl_req where
  newptr : Option Int
  deriving DecidableEq, Repr

/-- Result of a call of the kernel routine `sysctl_handle_int(oidp, &level, 0, req)`:
its return value and the content of `level` afterwards. -/
abbrev SysctlHandleInt := Int → sysctl_req → Int × Int

/-- Outcome of one call of the handler: its return value, the value of `level`
that was handed to `sysctl_handle_int` (the value a query reports), and the
world afterwards. -/
structure Outcome (σ : Type) where
  ret : Int
  oldval : Int
  world : World σ

/-- The handler `ambnb_sysctl_dev_ambnb_level(SYSCTL_HANDLER_ARGS)`. The kernel
routine `sysctl_handle_int` is a parameter. -/
def ambnb_sysctl_dev_ambnb_level {σ : Type} (m : Machine σ)
    (sysctl_handle_int : SysctlHandleInt) (req : sysctl_req) (w : World σ) : Outcome σ :=
  let g := ambnb_get_backlight m w
  let r := sysctl_handle_int g.1 req
  let error := r.1
  let level := r.2
  if error = 0 ∧ req.newptr ≠ none then
    if level < 0 ∨ level > 15 then
      { ret := EINVAL, oldval := g.1, world := g.2 }
    else
      { ret := error, oldval := g.1, world := ambnb_set_backlight m level g.2 }
  else
    { ret := error, oldval := g.1, world := g.2 }

/-- The behaviour of the kernel routine `sysctl_handle_int` when both copies
succeed: the old value is handed out, and when a new value is supplied it is
stored into `level`. -/
def sysctl_handle_int : SysctlHandleInt := fun level req =>
  match req.newptr with
  | none => (0, level)
  | some v => (0, v)

/-! ## Simulated hardware -/

/-- Modelled from the spec: the simulated chipset of the specification's
testable properties, a 4-bit level register and the latch of the data port. -/
structure SimHw where
  level : Fin 16
  latch : Fin 256
  deriving DecidableEq, Repr

/-- Modelled from the spec: a byte written to the data port `0xb3` is latched;
the command `0xBF` written to the control port `0xb2` sets the level to the
high nibble of the latch when the low nibble of the latch is `0x4`, and loads
`level << 4` into the latch when the latch is `0x03`. -/
def simOutb (s : SimHw) (port data : Nat) : SimHw :=
  if port = AMBNB_SMI_DATA then
    { s with latch := ⟨data % 256, Nat.mod_lt _ (by decide)⟩ }
  else if port = AMBNB_SMI_CTRL ∧ data = 0xbf then
    if s.latch.val % 16 = 4 then
      { s with level := ⟨s.latch.val / 16, by omega⟩ }
    else if s.latch.val = 0x03 then
      { s with latch := ⟨s.level.val <<< 4, by
          have h := s.level.isLt
          rw [Nat.shiftLeft_eq]
          omega⟩ }
    else s
  else s

/-- Modelled from the spec: a read of the data port yields the latch; any
other port floats high. -/
def simInb (s : SimHw) (port : Nat) : Nat × SimHw :=
  if port = AMBNB_SMI_DATA then (s.latch.val, s) else (0xff, s)

/-- The simulated chipset as a hardware model. -/
def simMachine : Machine SimHw := { outb := simOutb, inb := simInb }

/-! ## Hardware identification -/

/-- The bytes of a string. -/
def bytes (s : String) : List Nat := s.toList.map Char.toNat

/-- One entry of `struct bios_oem`: `{ anchor, offset, totlen }`. -/
structure bios_oem_signature where
  anchor : String
  offset : Nat
  totlen : Nat
  deriving DecidableEq, Repr

/-- The structure `struct bios_oem`: an address range and its signatures (the
terminating `{ NULL, 0, 0 }` entry is the end of the list). -/
structure bios_oem where
  range : Nat × Nat
  signature : List bios_oem_signature
  deriving DecidableEq, Repr

/-- The table `bios_apple` of MacBookPro models. -/
def bios_apple : bios_oem :=
  { range := (0xe0000, 0xfffff),
    signature := [
      { anchor := "MacBookPro1,2", offset := 0, totlen := 13 },
      { anchor := "MacBookPro3,1", offset := 0, totlen := 13 },
      { anchor := "MacBookPro3,2", offset := 0, totlen := 13 },
      { anchor := "MacBookPro4,2", offset := 0, totlen := 13 } ] }

/-- Modelled from the spec: the scan of the identification region for one
anchor, position by position; the platform routine that does it is not part of
the source. -/
def bios_search (str : List Nat) : List Nat → Bool
  | [] => str.isPrefixOf []
  | c :: cs => str.isPrefixOf (c :: cs) || bios_search str cs

/-- Modelled from the spec: the platform routine `bios_oem_strings` is not part
of the source. Each signature of the table is searched in the identification
region; a signature that is found contributes `totlen` bytes to the result
buffer, and the number of bytes gathered is returned. -/
def bios_oem_strings (oem : bios_oem) (region : List Nat) : Int :=
  Int.ofNat ((oem.signature.filter (fun sig => bios_search (bytes sig.anchor) region)).map
    (fun sig => sig.totlen)).sum

/-- The part of `device_t` the driver writes: the description. -/
structure device where
  desc : Option String
  deriving DecidableEq, Repr

/-- The routine `ambnb_probe(dev)`, over the identification region. The result
buffer `bios_oem` is never read by the driver; only the count returned by
`bios_oem_strings` is used. -/
def ambnb_probe (region : List Nat) (dev : device) : Int × device :=
  let r := bios_oem_strings bios_apple region
  if r > 0 then
    (BUS_PROBE_DEFAULT, { dev with desc := some "Apple MacBook Nvidia/Radeon Backlight" })
  else
    ( ENXIO, dev)

/-- The routine `ambnb_attach(dev)`. -/
def ambnb_attach (_dev : device) : Int := 0

/-- The routine `ambnb_detach(dev)`. -/
def ambnb_detach (_dev : device) : Int := 0

/-- The three port operations of a backlight query. -/
def readSeq : List PortOp :=
  [PortOp.outb AMBNB_SMI_DATA 0x03, PortOp.outb AMBNB_SMI_CTRL 0xbf, PortOp.inb AMBNB_SMI_DATA]

/-! ## Basic facts about the routines -/

theorem set_backlight_trace {σ : Type} (m : Machine σ) (level : Int) (w : World σ) :
    (ambnb_set_backlight m level w).trace = w.trace ++
      [PortOp.outb AMBNB_SMI_DATA (u_char (Int.lor 0x04 (level <<< (4 : Int)))),
       PortOp.outb AMBNB_SMI_CTRL 0xbf] := by
  simp [ambnb_set_backlight, outb, u_char]

theorem set_backlight_calls {σ : Type} (m : Machine σ) (level : Int) (w : World σ) :
    (ambnb_set_backlight m level w).calls = w.calls ++ [Call.set level] := by
  simp [ambnb_set_backlight, outb]

theorem get_backlight_trace {σ : Type} (m : Machine σ) (w : World σ) :
    (ambnb_get_backlight m w).2.trace = w.trace ++ readSeq := by
  simp [ambnb_get_backlight, outb, inb, u_char, readSeq]

theorem get_backlight_calls {σ : Type} (m : Machine σ) (w : World σ) :
    (ambnb_get_backlight m w).2.calls = w.calls ++ [Call.get] := by
  simp [ambnb_get_backlight, outb, inb]

theorem data_byte_eq (L : Int) (h0 : 0 ≤ L) (h15 : L ≤ 15) :
    u_char (Int.lor 0x04 (L <<< (4 : Int))) = 0x04 ||| (L.toNat <<< 4) := by
  interval_cases L <;> decide

theorem sim_get_level (w : World SimHw) :
    (ambnb_get_backlight simMachine w).2.hw.level = w.hw.level := rfl

theorem sim_get_val (w : World SimHw) :
    (ambnb_get_backlight simMachine w).1 = (w.hw.level.val : Int) := by
  have h := w.hw.level.isLt
  have key : (ambnb_get_backlight simMachine w).1 =
      (((w.hw.level.val <<< 4) % 256 : Nat) : Int) >>> (4 : Nat) := rfl
  rw [key, Nat.shiftLeft_eq, Int.shiftRight_eq_div_pow]
  omega

theorem sim_command (s : SimHw) (d : Nat) (hd : d < 256) (h4 : d % 16 = 4) :
    ((simOutb (simOutb s AMBNB_SMI_DATA d) AMBNB_SMI_CTRL 0xbf).level : Nat) = d / 16 := by
  simp [simOutb, AMBNB_SMI_DATA, AMBNB_SMI_CTRL, Nat.mod_eq_of_lt hd, h4]

theorem sim_set_level (w : World SimHw) (L : Int) (h0 : 0 ≤ L) (h15 : L ≤ 15) :
    ((ambnb_set_backlight simMachine L w).hw.level.val : Int) = L := by
  have key : (ambnb_set_backlight simMachine L w).hw =
      simOutb (simOutb w.hw AMBNB_SMI_DATA (u_char (Int.lor 0x04 (L <<< (4 : Int)))))
        AMBNB_SMI_CTRL 0xbf := rfl
  have hd : (0x04 ||| (L.toNat <<< 4)) < 256 := by interval_cases L <;> decide
  have h4 : (0x04 ||| (L.toNat <<< 4)) % 16 = 4 := by interval_cases L <;> decide
  have hq : ((0x04 ||| (L.toNat <<< 4)) / 16 : Nat) = L.toNat := by
    interval_cases L <;> decide
  rw [key, data_byte_eq L h0 h15, sim_command w.hw _ hd h4, hq]
  omega

theorem handler_read {σ : Type} (m : Machine σ) (h : SysctlHandleInt)
    (req : sysctl_req) (w : World σ) (hnew : req.newptr = none) :
    (ambnb_sysctl_dev_ambnb_level m h req w).world = (ambnb_get_backlight m w).2 ∧
      (ambnb_sysctl_dev_ambnb_level m h req w).oldval = (ambnb_get_backlight m w).1 := by
  simp [ambnb_sysctl_dev_ambnb_level, hnew]

theorem handler_write_ok {σ : Type} (m : Machine σ) (h : SysctlHandleInt)
    (req : sysctl_req) (w : World σ) (v : Int) (hnew : req.newptr ≠ none)
    (hok : h (ambnb_get_backlight m w).1 req = (0, v)) (h0 : 0 ≤ v) (h15 : v ≤ 15) :
    (ambnb_sysctl_dev_ambnb_level m h req w).world =
        ambnb_set_backlight m v (ambnb_get_backlight m w).2 ∧
      (ambnb_sysctl_dev_ambnb_level m h req w).ret = 0 := by
  have hr : ¬ (v < 0 ∨ v > 15) := by omega
  simp [ambnb_sysctl_dev_ambnb_level, hnew, hok, hr]

theorem handler_write_bad {σ : Type} (m : Machine σ) (h : SysctlHandleInt)
    (req : sysctl_req) (w : World σ) (v : Int) (hnew : req.newptr ≠ none)
    (hok : h (ambnb_get_backlight m w).1 req = (0, v)) (hv : v < 0 ∨ v > 15) :
    (ambnb_sysctl_dev_ambnb_level m h req w).world = (ambnb_get_backlight m w).2 ∧
      (ambnb_sysctl_dev_ambnb_level m h req w).ret = EINVAL := by
  simp [ambnb_sysctl_dev_ambnb_level, hnew, hok, hv]

theorem bios_search_iff (str region : List Nat) :
    bios_search str region = true ↔ str <:+: region := by
  induction region with
  | nil => simp [bios_search, List.infix_nil, List.prefix_nil]
  | cons c cs ih =>
    simp only [bios_search, Bool.or_eq_true, List.isPrefixOf_iff_prefix, ih,
      List.infix_cons_iff]

theorem gathered_pos (sigs : List bios_oem_signature) (region : List Nat) :
    0 < ((sigs.filter (fun sig => bios_search (bytes sig.anchor) region)).map
        (fun sig => sig.totlen)).sum ↔
      ∃ sig ∈ sigs, bytes sig.anchor <:+: region ∧ 0 < sig.totlen := by
  induction sigs with
  | nil => simp
  | cons sig sigs ih =>
    by_cases hf : bios_search (bytes sig.anchor) region = true
    · have hi := (bios_search_iff _ _).1 hf
      simp only [List.filter_cons, hf, if_true, List.map_cons, List.sum_cons,
        List.mem_cons, exists_eq_or_imp, hi, true_and]
      rw [← ih]
      omega
    · have hi : ¬ bytes sig.anchor <:+: region := fun hc => hf ((bios_search_iff _ _).2 hc)
      simp only [List.filter_cons, hf, List.mem_cons, exists_eq_or_imp, hi, false_and,
        false_or]
      simpa using ih

theorem bios_oem_strings_pos (oem : bios_oem) (region : List Nat) :
    bios_oem_strings oem region > 0 ↔
      ∃ sig ∈ oem.signature, bytes sig.anchor <:+: region ∧ 0 < sig.totlen := by
  rw [← gathered_pos]
  unfold bios_oem_strings
  exact Int.ofNat_pos

/-- Every call of the handler starts with the three port operations of a
query, whatever the request and whatever `sysctl_handle_int` returns. -/
theorem handler_starts_with_query {σ : Type} (m : Machine σ) (h : SysctlHandleInt)
    (req : sysctl_req) (w : World σ) :
    (w.trace ++ readSeq) <+: (ambnb_sysctl_dev_ambnb_level m h req w).world.trace := by
  rw [← get_backlight_trace m w]
  unfold ambnb_sysctl_dev_ambnb_level
  simp only []
  split_ifs
  · exact List.prefix_refl _
  · rw [set_backlight_trace]
    exact List.prefix_append _ _
  · exact List.prefix_refl _

/-! ## Properties -/

/-- C4: for every level `L` with `0 ≤ L ≤ 15`, `ambnb_set_backlight L` issues
exactly two port writes, first the byte `0x04 | (L << 4)` to the data port
`0xb3`, then `0xBF` to the control port `0xb2`; the data byte fits in 8 bits,
its high nibble is `L`, its low nibble is `4`, and no port is read. -/
theorem set_backlight_encoding {σ : Type} (m : Machine σ) (w : World σ) (L : Int)
    (h0 : 0 ≤ L) (h15 : L ≤ 15) :
    (ambnb_set_backlight m L w).trace = w.trace ++
        [PortOp.outb 0xb3 (0x04 ||| (L.toNat <<< 4)), PortOp.outb 0xb2 0xbf] ∧
      (0x04 ||| (L.toNat <<< 4)) < 256 ∧
      ((0x04 ||| (L.toNat <<< 4)) >>> 4 : Nat) = L ∧
      (0x04 ||| (L.toNat <<< 4)) &&& 0xf = 0x4 ∧
      ∀ p, PortOp.inb p ∉ ((ambnb_set_backlight m L w).trace.drop w.trace.length) := by
  have ht := set_backlight_trace m L w
  rw [data_byte_eq L h0 h15] at ht
  refine ⟨ht, ?_, ?_, ?_, ?_⟩
  · interval_cases L <;> decide
  · interval_cases L <;> decide
  · interval_cases L <;> decide
  · intro p
    rw [ht, List.drop_left]
    simp

/-- Witness of C4 at level 9 on the simulated chipset. -/
theorem set_backlight_encoding_witness :
    (ambnb_set_backlight simMachine 9 ⟨⟨0, 0⟩, [], []⟩).trace =
      [PortOp.outb 0xb3 0x94, PortOp.outb 0xb2 0xbf] :=
  (set_backlight_encoding simMachine ⟨⟨0, 0⟩, [], []⟩ 9 (by decide) (by decide)).1

/-- C5: `ambnb_get_backlight` issues exactly the query byte `0x03` to the data
port `0xb3`, then `0xBF` to the control port `0xb2`, then one read of the data
port; for every byte `b` the read yields, the result is `b >> 4`, and the
result always lies in `[0,15]`. -/
theorem get_backlight_protocol {σ : Type} (m : Machine σ) (w : World σ) :
    (ambnb_get_backlight m w).2.trace = w.trace ++
        [PortOp.outb 0xb3 0x03, PortOp.outb 0xb2 0xbf, PortOp.inb 0xb3] ∧
      (∀ b : Nat, b < 256 →
        (m.inb (m.outb (m.outb w.hw 0xb3 0x03) 0xb2 0xbf) 0xb3).1 = b →
        (ambnb_get_backlight m w).1 = ((b >>> 4 : Nat) : Int)) ∧
      0 ≤ (ambnb_get_backlight m w).1 ∧ (ambnb_get_backlight m w).1 ≤ 15 := by
  refine ⟨get_backlight_trace m w, ?_, ?_, ?_⟩
  · intro b hb hrd
    have key : (ambnb_get_backlight m w).1 =
        (((m.inb (m.outb (m.outb w.hw 0xb3 0x03) 0xb2 0xbf) 0xb3).1 % 256 : Nat) : Int)
          >>> (4 : Nat) := rfl
    rw [key, hrd, Nat.mod_eq_of_lt hb]
    simp [Int.shiftRight_eq_div_pow, Nat.shiftRight_eq_div_pow]
  · simp only [ambnb_get_backlight, inb]
    simp only [Int.shiftRight_eq_div_pow]
    omega
  · simp only [ambnb_get_backlight, inb]
    simp only [Int.shiftRight_eq_div_pow]
    omega

/-- Witness of C5: the simulated chipset at level 7 answers `0x70`. -/
theorem get_backlight_protocol_witness :
    (ambnb_get_backlight simMachine ⟨⟨7, 0⟩, [], []⟩).1 = ((0x70 >>> 4 : Nat) : Int) :=
  (get_backlight_protocol simMachine ⟨⟨7, 0⟩, [], []⟩).2.1 0x70 (by decide) (by decide)

/-- C9: a call of the handler without a new value (`req->newptr == NULL`)
hands out exactly the value `ambnb_get_backlight` returned for that call, its
port trace is exactly the three-operation read sequence, and
`ambnb_set_backlight` is not invoked, whatever `sysctl_handle_int` does. -/
theorem sysctl_read_only {σ : Type} (m : Machine σ) (h : SysctlHandleInt)
    (req : sysctl_req) (w : World σ) (hnew : req.newptr = none) :
    (ambnb_sysctl_dev_ambnb_level m h req w).oldval = (ambnb_get_backlight m w).1 ∧
      (ambnb_sysctl_dev_ambnb_level m h req w).world.trace = w.trace ++
        [PortOp.outb 0xb3 0x03, PortOp.outb 0xb2 0xbf, PortOp.inb 0xb3] ∧
      (ambnb_sysctl_dev_ambnb_level m h req w).world.calls = w.calls ++ [Call.get] ∧
      (ambnb_sysctl_dev_ambnb_level m h req w).ret = (h (ambnb_get_backlight m w).1 req).1 := by
  have hw : (ambnb_sysctl_dev_ambnb_level m h req w).world = (ambnb_get_backlight m w).2 := by
    simp [ambnb_sysctl_dev_ambnb_level, hnew]
  refine ⟨?_, ?_, ?_, ?_⟩
  · simp [ambnb_sysctl_dev_ambnb_level, hnew]
  · rw [hw]; exact get_backlight_trace m w
  · rw [hw]; exact get_backlight_calls m w
  · simp [ambnb_sysctl_dev_ambnb_level, hnew]

/-- Witness of C9: a query on the simulated chipset at level 7. -/
theorem sysctl_read_only_witness :
    (ambnb_sysctl_dev_ambnb_level simMachine sysctl_handle_int ⟨none⟩ ⟨⟨7, 0⟩, [], []⟩).oldval
        = 7 ∧
      (ambnb_sysctl_dev_ambnb_level simMachine sysctl_handle_int ⟨none⟩
        ⟨⟨7, 0⟩, [], []⟩).world.calls = [Call.get] :=
  ⟨(sysctl_read_only simMachine sysctl_handle_int ⟨none⟩ ⟨⟨7, 0⟩, [], []⟩ rfl).1,
   (sysctl_read_only simMachine sysctl_handle_int ⟨none⟩ ⟨⟨7, 0⟩, [], []⟩ rfl).2.2.1⟩

/-- C10: whatever nonzero error `e` `sysctl_handle_int` returns and whatever
it leaves in `level`, the handler returns `e` and does not invoke
`ambnb_set_backlight`; `ambnb_set_backlight level` is invoked exactly when
`sysctl_handle_int` returned 0, a new value was supplied and
`0 ≤ level ≤ 15`, and then the handler returns 0; in every other case only
`ambnb_get_backlight` is called. -/
theorem sysctl_error_propagation {σ : Type} (m : Machine σ) (h : SysctlHandleInt)
    (req : sysctl_req) (w : World σ) :
    ((h (ambnb_get_backlight m w).1 req).1 ≠ 0 →
        (ambnb_sysctl_dev_ambnb_level m h req w).ret = (h (ambnb_get_backlight m w).1 req).1 ∧
        (ambnb_sysctl_dev_ambnb_level m h req w).world.calls = w.calls ++ [Call.get]) ∧
      ((ambnb_sysctl_dev_ambnb_level m h req w).world.calls =
          w.calls ++ [Call.get, Call.set (h (ambnb_get_backlight m w).1 req).2] ↔
        ((h (ambnb_get_backlight m w).1 req).1 = 0 ∧ req.newptr ≠ none ∧
          0 ≤ (h (ambnb_get_backlight m w).1 req).2 ∧
          (h (ambnb_get_backlight m w).1 req).2 ≤ 15)) ∧
      (((h (ambnb_get_backlight m w).1 req).1 = 0 ∧ req.newptr ≠ none ∧
          0 ≤ (h (ambnb_get_backlight m w).1 req).2 ∧
          (h (ambnb_get_backlight m w).1 req).2 ≤ 15) →
        (ambnb_sysctl_dev_ambnb_level m h req w).ret = 0) ∧
      (¬ ((h (ambnb_get_backlight m w).1 req).1 = 0 ∧ req.newptr ≠ none ∧
          0 ≤ (h (ambnb_get_backlight m w).1 req).2 ∧
          (h (ambnb_get_backlight m w).1 req).2 ≤ 15) →
        (ambnb_sysctl_dev_ambnb_level m h req w).world.calls = w.calls ++ [Call.get]) := by
  have hg := get_backlight_calls m w
  generalize hr : h (ambnb_get_backlight m w).1 req = r at *
  by_cases he : r.1 = 0
  · by_cases hn : req.newptr = none
    · simp [ambnb_sysctl_dev_ambnb_level, hr, he, hn, hg]
    · by_cases hrange : r.2 < 0 ∨ r.2 > 15
      · have hnr : ¬ (0 ≤ r.2 ∧ r.2 ≤ 15) := by omega
        simp [ambnb_sysctl_dev_ambnb_level, hr, he, hn, hg, hrange, hnr]
      · have hir : 0 ≤ r.2 ∧ r.2 ≤ 15 := by omega
        simp [ambnb_sysctl_dev_ambnb_level, hr, he, hn, hg, hrange, hir,
          set_backlight_calls]
  · simp [ambnb_sysctl_dev_ambnb_level, hr, he, hg]

/-- Witness of C10: a failing copy (`EFAULT`, 14) with an out-of-range
`level` is passed through unchanged and nothing is written. -/
theorem sysctl_error_propagation_witness :
    (ambnb_sysctl_dev_ambnb_level simMachine (fun _ _ => (14, 99)) ⟨some 99⟩
        ⟨⟨7, 0⟩, [], []⟩).ret = 14 ∧
      (ambnb_sysctl_dev_ambnb_level simMachine (fun _ _ => (14, 99)) ⟨some 99⟩
        ⟨⟨7, 0⟩, [], []⟩).world.calls = [Call.get] :=
  (sysctl_error_propagation simMachine (fun _ _ => (14, 99)) ⟨some 99⟩
    ⟨⟨7, 0⟩, [], []⟩).1 (by decide)

/-- C1: on the simulated chipset, for every `v` with `0 ≤ v ≤ 15` and every
initial hardware state, a write of `v` through the handler
(`sysctl_handle_int` succeeding with the new value `v`) returns 0 and leaves
the level register at `v`, and a subsequent read through the handler reports
`v`. -/
theorem sysctl_round_trip (w : World SimHw) (v : Int) (h0 : 0 ≤ v) (h15 : v ≤ 15)
    (h : SysctlHandleInt) (req : sysctl_req) (hnew : req.newptr ≠ none)
    (hok : h (ambnb_get_backlight simMachine w).1 req = (0, v))
    (h' : SysctlHandleInt) (req' : sysctl_req) (hnew' : req'.newptr = none) :
    (ambnb_sysctl_dev_ambnb_level simMachine h req w).ret = 0 ∧
      ((ambnb_sysctl_dev_ambnb_level simMachine h req w).world.hw.level.val : Int) = v ∧
      (ambnb_sysctl_dev_ambnb_level simMachine h' req'
        (ambnb_sysctl_dev_ambnb_level simMachine h req w).world).oldval = v := by
  obtain ⟨hw1, hret⟩ := handler_write_ok simMachine h req w v hnew hok h0 h15
  have hlev := sim_set_level (ambnb_get_backlight simMachine w).2 v h0 h15
  refine ⟨hret, ?_, ?_⟩
  · rw [hw1]; exact hlev
  · rw [(handler_read simMachine h' req' _ hnew').2, sim_get_val, hw1]
    exact hlev

/-- Witness of C1: writing 9 to a chipset at level 7, then reading. -/
theorem sysctl_round_trip_witness :
    (ambnb_sysctl_dev_ambnb_level simMachine sysctl_handle_int ⟨some 9⟩
        ⟨⟨7, 0⟩, [], []⟩).ret = 0 ∧
      ((ambnb_sysctl_dev_ambnb_level simMachine sysctl_handle_int ⟨some 9⟩
        ⟨⟨7, 0⟩, [], []⟩).world.hw.level.val : Int) = 9 ∧
      (ambnb_sysctl_dev_ambnb_level simMachine sysctl_handle_int ⟨none⟩
        (ambnb_sysctl_dev_ambnb_level simMachine sysctl_handle_int ⟨some 9⟩
          ⟨⟨7, 0⟩, [], []⟩).world).oldval = 9 :=
  sysctl_round_trip ⟨⟨7, 0⟩, [], []⟩ 9 (by decide) (by decide) sysctl_handle_int ⟨some 9⟩
    (by decide) rfl sysctl_handle_int ⟨none⟩ rfl

/-- C2: on the simulated chipset, for every `v` with `v < 0` or `v > 15` and
every initial hardware state, a write of `v` through the handler fails with
`EINVAL`, `ambnb_set_backlight` is not invoked, and the level register is the
same after the call as before. -/
theorem write_out_of_range_rejected (w : World SimHw) (v : Int) (hv : v < 0 ∨ v > 15)
    (h : SysctlHandleInt) (req : sysctl_req) (hnew : req.newptr ≠ none)
    (hok : h (ambnb_get_backlight simMachine w).1 req = (0, v)) :
    (ambnb_sysctl_dev_ambnb_level simMachine h req w).ret = EINVAL ∧
      (ambnb_sysctl_dev_ambnb_level simMachine h req w).world.calls = w.calls ++ [Call.get] ∧
      (ambnb_sysctl_dev_ambnb_level simMachine h req w).world.hw.level = w.hw.level := by
  obtain ⟨hw1, hret⟩ := handler_write_bad simMachine h req w v hnew hok hv
  refine ⟨hret, ?_, ?_⟩
  · rw [hw1]; exact get_backlight_calls simMachine w
  · rw [hw1]; exact sim_get_level w

/-- Witness of C2: writing 16 to a chipset at level 7. -/
theorem write_out_of_range_rejected_witness :
    (ambnb_sysctl_dev_ambnb_level simMachine sysctl_handle_int ⟨some 16⟩
        ⟨⟨7, 0⟩, [], []⟩).ret = EINVAL ∧
      (ambnb_sysctl_dev_ambnb_level simMachine sysctl_handle_int ⟨some 16⟩
        ⟨⟨7, 0⟩, [], []⟩).world.calls = [Call.get] ∧
      (ambnb_sysctl_dev_ambnb_level simMachine sysctl_handle_int ⟨some 16⟩
        ⟨⟨7, 0⟩, [], []⟩).world.hw.level = 7 :=
  write_out_of_range_rejected ⟨⟨7, 0⟩, [], []⟩ 16 (by decide) sysctl_handle_int ⟨some 16⟩
    (by decide) rfl

/-- C3, as stated, fails: a write of 16 through the handler is refused with
`EINVAL`, yet the port trace of the call holds the three operations of the
query that precedes the range check. -/
theorem invalid_write_trace_nonempty :
    (ambnb_sysctl_dev_ambnb_level simMachine sysctl_handle_int ⟨some 16⟩
        ⟨⟨7, 0⟩, [], []⟩).ret = EINVAL ∧
      (ambnb_sysctl_dev_ambnb_level simMachine sysctl_handle_int ⟨some 16⟩
        ⟨⟨7, 0⟩, [], []⟩).world.trace =
        [PortOp.outb 0xb3 0x03, PortOp.outb 0xb2 0xbf, PortOp.inb 0xb3] ∧
      (ambnb_sysctl_dev_ambnb_level simMachine sysctl_handle_int ⟨some 16⟩
        ⟨⟨7, 0⟩, [], []⟩).world.trace ≠ [] := by
  decide

/-- C3, amended: a write of a level outside `[0,15]` through the handler
performs no backlight-write I/O: the port trace of the call is exactly the
three-operation read sequence of the `ambnb_get_backlight` call that precedes
the range check, and no byte is written after it. -/
theorem invalid_write_issues_query_only {σ : Type} (m : Machine σ) (w : World σ) (v : Int)
    (hv : v < 0 ∨ v > 15) (h : SysctlHandleInt) (req : sysctl_req)
    (hnew : req.newptr ≠ none) (hok : h (ambnb_get_backlight m w).1 req = (0, v)) :
    (ambnb_sysctl_dev_ambnb_level m h req w).world.trace = w.trace ++
        [PortOp.outb 0xb3 0x03, PortOp.outb 0xb2 0xbf, PortOp.inb 0xb3] ∧
      (ambnb_sysctl_dev_ambnb_level m h req w).world.calls = w.calls ++ [Call.get] := by
  obtain ⟨hw1, _⟩ := handler_write_bad m h req w v hnew hok hv
  rw [hw1]
  exact ⟨get_backlight_trace m w, get_backlight_calls m w⟩

/-- Witness of the amended C3: writing -1 to a chipset at level 7. -/
theorem invalid_write_issues_query_only_witness :
    (ambnb_sysctl_dev_ambnb_level simMachine sysctl_handle_int ⟨some (-1)⟩
        ⟨⟨7, 0⟩, [], []⟩).world.trace =
        [PortOp.outb 0xb3 0x03, PortOp.outb 0xb2 0xbf, PortOp.inb 0xb3] ∧
      (ambnb_sysctl_dev_ambnb_level simMachine sysctl_handle_int ⟨some (-1)⟩
        ⟨⟨7, 0⟩, [], []⟩).world.calls = [Call.get] :=
  invalid_write_issues_query_only simMachine ⟨⟨7, 0⟩, [], []⟩ (-1) (by decide) sysctl_handle_int
    ⟨some (-1)⟩ (by decide) rfl

/-- C7: on the simulated chipset, for every initial hardware state, two reads
in a row, through `ambnb_get_backlight` or through the handler without a new
value, return the same value, and the level register is the same after each
call as before it. -/
theorem read_idempotent (w : World SimHw) (h h' : SysctlHandleInt) (req req' : sysctl_req)
    (hnew : req.newptr = none) (hnew' : req'.newptr = none) :
    ((ambnb_get_backlight simMachine (ambnb_get_backlight simMachine w).2).1 =
        (ambnb_get_backlight simMachine w).1 ∧
      (ambnb_get_backlight simMachine w).2.hw.level = w.hw.level ∧
      (ambnb_get_backlight simMachine (ambnb_get_backlight simMachine w).2).2.hw.level =
        w.hw.level) ∧
    ((ambnb_sysctl_dev_ambnb_level simMachine h' req'
          (ambnb_sysctl_dev_ambnb_level simMachine h req w).world).oldval =
        (ambnb_sysctl_dev_ambnb_level simMachine h req w).oldval ∧
      (ambnb_sysctl_dev_ambnb_level simMachine h req w).world.hw.level = w.hw.level ∧
      (ambnb_sysctl_dev_ambnb_level simMachine h' req'
          (ambnb_sysctl_dev_ambnb_level simMachine h req w).world).world.hw.level =
        w.hw.level) := by
  have e1 := handler_read simMachine h req w hnew
  have e2 := handler_read simMachine h' req'
    (ambnb_sysctl_dev_ambnb_level simMachine h req w).world hnew'
  refine ⟨⟨?_, sim_get_level w, ?_⟩, ?_, ?_, ?_⟩
  · rw [sim_get_val, sim_get_val, sim_get_level]
  · rw [sim_get_level, sim_get_level]
  · rw [e2.2, e1.2, e1.1, sim_get_val, sim_get_val, sim_get_level]
  · rw [e1.1, sim_get_level]
  · rw [e2.1, e1.1, sim_get_level, sim_get_level]

/-- Witness of C7: two queries of a chipset at level 7 both report 7. -/
theorem read_idempotent_witness :
    (ambnb_sysctl_dev_ambnb_level simMachine sysctl_handle_int ⟨none⟩
        (ambnb_sysctl_dev_ambnb_level simMachine sysctl_handle_int ⟨none⟩
          ⟨⟨7, 0⟩, [], []⟩).world).oldval =
      (ambnb_sysctl_dev_ambnb_level simMachine sysctl_handle_int ⟨none⟩
        ⟨⟨7, 0⟩, [], []⟩).oldval :=
  (read_idempotent ⟨⟨7, 0⟩, [], []⟩ sysctl_handle_int sysctl_handle_int ⟨none⟩ ⟨none⟩
    rfl rfl).2.1

/-- C6: with `bios_oem_strings` a substring search of the identification
region for each signature of `bios_apple`, `ambnb_probe` returns
`BUS_PROBE_DEFAULT` exactly when the region contains one of "MacBookPro1,2",
"MacBookPro3,1", "MacBookPro3,2", "MacBookPro4,2", and `ENXIO` for all other
data; data whose only model string is "MacBookPro5,1" yields `ENXIO`. -/
theorem probe_match (region : List Nat) (dev : device) :
    ((ambnb_probe region dev).1 = BUS_PROBE_DEFAULT ↔
        (bytes "MacBookPro1,2" <:+: region ∨ bytes "MacBookPro3,1" <:+: region ∨
          bytes "MacBookPro3,2" <:+: region ∨ bytes "MacBookPro4,2" <:+: region)) ∧
      ((ambnb_probe region dev).1 = ENXIO ↔
        ¬ (bytes "MacBookPro1,2" <:+: region ∨ bytes "MacBookPro3,1" <:+: region ∨
          bytes "MacBookPro3,2" <:+: region ∨ bytes "MacBookPro4,2" <:+: region)) ∧
      (ambnb_probe (bytes "MacBookPro5,1") dev).1 = ENXIO ∧
      (ambnb_probe (bytes "Apple Inc. MacBookPro5,1 1.0") dev).1 = ENXIO := by
  have key : ∀ r : List Nat, bios_oem_strings bios_apple r > 0 ↔
      (bytes "MacBookPro1,2" <:+: r ∨ bytes "MacBookPro3,1" <:+: r ∨
        bytes "MacBookPro3,2" <:+: r ∨ bytes "MacBookPro4,2" <:+: r) := by
    intro r
    rw [bios_oem_strings_pos]
    simp [bios_apple]
  have hne : BUS_PROBE_DEFAULT ≠ ENXIO := by decide
  have hp : ∀ r : List Nat, (ambnb_probe r dev).1 =
      if bios_oem_strings bios_apple r > 0 then BUS_PROBE_DEFAULT else ENXIO := by
    intro r
    unfold ambnb_probe
    by_cases hr : bios_oem_strings bios_apple r > 0 <;> simp [hr]
  refine ⟨?_, ?_, ?_, ?_⟩
  · rw [hp, ← key]
    by_cases hr : bios_oem_strings bios_apple region > 0 <;> simp [hr, hne.symm]
  · rw [hp, ← key]
    by_cases hr : bios_oem_strings bios_apple region > 0 <;> simp [hr, hne]
  · rw [hp, if_neg]
    rw [key]
    decide
  · rw [hp, if_neg]
    rw [key]
    decide

end Ambnb
